import Mathlib

/-!
Shallow embedding of the response-aggregation engine of the OSCE questionnaire
dashboard (src/index..jsx).

Modelling conventions:
* JavaScript primitive values are modelled by the inductive type `JSVal`
  (number, NaN, string, boolean, null, undefined).  JavaScript numbers are
  modelled as exact rationals (`ℚ`); double-precision rounding is not modelled,
  so every arithmetic statement below is about the exact real-number semantics
  of the source expressions.
* `parseFloat` is only ever applied (in `parseScore`, line 66 of the source) to
  a string already stripped to decimal digits and dots, so `parseFloatDD`
  implements exactly that fragment of the JavaScript `parseFloat` grammar
  (longest leading `digits [. digits]` / `. digits` prefix, `none` = NaN).
* `parseInt` applied to a string (`jsParseIntStr`) implements the radix-10 /
  auto-hex JavaScript grammar: leading whitespace, optional sign, optional
  `0x`/`0X` prefix, longest digit run, `none` = NaN.  `parseInt` applied to a
  number first stringifies it; for doubles printed in plain decimal notation
  this is truncation toward zero, which is how the `.num` case is modelled.
* `String(v)` for the non-number values reaching the conversion sites is
  inlined per constructor (`"true"`, `"false"`, `"null"`, `"undefined"`).
-/

namespace OSCE

/-- A JavaScript primitive value (the shapes that reach the engine's
helper functions). -/
inductive JSVal where
  | num (q : ℚ)
  | nan
  | str (s : String)
  | boolV (b : Bool)
  | nullV
  | undefV
deriving DecidableEq, Repr

/-- JavaScript truthiness of a `JSVal`. -/
def truthy : JSVal → Bool
  | .num q => decide (q ≠ 0)
  | .nan => false
  | .str s => decide (s ≠ "")
  | .boolV b => b
  | .nullV => false
  | .undefV => false

/-- JavaScript strict equality `===` on primitive values.  `NaN` is equal to
nothing (including itself); values of different types are never equal. -/
def jsEq : JSVal → JSVal → Bool
  | .num a, .num b => decide (a = b)
  | .str a, .str b => decide (a = b)
  | .boolV a, .boolV b => decide (a = b)
  | .nullV, .nullV => true
  | .undefV, .undefV => true
  | _, _ => false

/-- Value of a list of decimal digit characters. -/
def digitsToNat (ds : List Char) : Nat :=
  ds.foldl (fun a c => a * 10 + (c.toNat - 48)) 0

/-- `String(val).replace(/[^0-9.]/g, '')` — keep only decimal digits and
dots (src line 66). -/
def stripScore (s : String) : String :=
  String.mk (s.toList.filter (fun c => c.isDigit || c = '.'))

/-- `parseFloat` restricted to strings made of decimal digits and dots (the
only strings it receives in the source): the longest leading prefix of shape
`digits`, `digits . digits`, `digits .` or `. digits` is the value; `none`
models NaN (no parsable prefix). -/
def parseFloatDD (s : String) : Option ℚ :=
  let cs := s.toList
  let intDs := cs.takeWhile Char.isDigit
  match cs.drop intDs.length with
  | '.' :: rest =>
      let fracDs := rest.takeWhile Char.isDigit
      if intDs.isEmpty && fracDs.isEmpty then none
      else some ((digitsToNat intDs : ℚ) +
                 (digitsToNat fracDs : ℚ) / (10 : ℚ) ^ fracDs.length)
  | _ => if intDs.isEmpty then none else some (digitsToNat intDs)

/-- `const parsed = parseFloat(String(val).replace(/[^0-9.]/g, ''));
return isNaN(parsed) ? 0 : parsed;` (src lines 66–67). -/
def parseTail (s : String) : ℚ :=
  (parseFloatDD (stripScore s)).getD 0

/-- The Score Normalizer `parseScore` (src lines 63–68).  Numbers (NaN
included, `typeof NaN === 'number'`) are returned unchanged; falsy values
yield 0; any other value is stringified, stripped and parsed. -/
def parseScore : JSVal → JSVal
  | .num q => .num q
  | .nan => .nan
  | .nullV => .num 0
  | .undefV => .num 0
  | .boolV false => .num 0
  | .boolV true => .num (parseTail "true")
  | .str s => if s = "" then .num 0 else .num (parseTail s)

/-- JavaScript `parseInt` whitespace (the common subset). -/
def isJsSpace (c : Char) : Bool :=
  c = ' ' || c = '\t' || c = '\n' || c = '\r'

/-- Hexadecimal digit test for `parseInt`'s auto-hex mode. -/
def isHexDigitJs (c : Char) : Bool :=
  c.isDigit || ('a' ≤ c && c ≤ 'f') || ('A' ≤ c && c ≤ 'F')

/-- Value of a hexadecimal digit character. -/
def hexVal (c : Char) : Nat :=
  if c.isDigit then c.toNat - 48
  else if 'a' ≤ c then c.toNat - 87
  else c.toNat - 55

/-- Value of a list of hexadecimal digit characters. -/
def hexToNat (ds : List Char) : Nat :=
  ds.foldl (fun a c => a * 16 + hexVal c) 0

/-- `parseInt(s)` on a string: skip whitespace, optional sign, `0x`/`0X`
auto-hex, longest run of digits; `none` models NaN. -/
def jsParseIntStr (s : String) : Option Int :=
  let cs := s.toList.dropWhile isJsSpace
  let sgn : Int := match cs with | '-' :: _ => -1 | _ => 1
  let cs1 := match cs with | '-' :: r => r | '+' :: r => r | r => r
  match cs1 with
  | '0' :: 'x' :: r =>
      let ds := r.takeWhile isHexDigitJs
      if ds.isEmpty then none else some (sgn * (hexToNat ds : Int))
  | '0' :: 'X' :: r =>
      let ds := r.takeWhile isHexDigitJs
      if ds.isEmpty then none else some (sgn * (hexToNat ds : Int))
  | r =>
      let ds := r.takeWhile Char.isDigit
      if ds.isEmpty then none else some (sgn * (digitsToNat ds : Int))

/-- Truncation toward zero (what `parseInt(String(x))` computes for a double
printed in plain decimal notation). -/
def truncQ (x : ℚ) : Int :=
  if 0 ≤ x then ⌊x⌋ else ⌈x⌉

/-- `parseInt(v)`: non-strings are stringified first.  `"true"`, `"false"`,
`"null"`, `"undefined"` and `"NaN"` all parse to NaN. -/
def jsParseInt : JSVal → JSVal
  | .num q => .num ((truncQ q : ℤ) : ℚ)
  | .str s => match jsParseIntStr s with
              | some n => .num ((n : ℤ) : ℚ)
              | none => .nan
  | .nan => .nan
  | .boolV _ => .nan
  | .nullV => .nan
  | .undefV => .nan

/-- Station canonicalization `parseInt(item.station) || item.station`
(src line 161): the parsed integer when it is truthy (not NaN, not 0),
otherwise the original value. -/
def normStation (v : JSVal) : JSVal :=
  if truthy (jsParseInt v) then jsParseInt v else v

/-- A raw survey response as delivered by the remote endpoint: every field
arrives untyped (src §RawResponse). -/
structure RawRec where
  date : JSVal
  station : JSVal
  examiner : JSVal
  q1 : JSVal
  q2 : JSVal
  q3 : JSVal
  q4 : JSVal
  q5 : JSVal
  q6 : JSVal
  q7 : JSVal
  q8 : JSVal
  q9 : JSVal
  q10 : JSVal
deriving DecidableEq, Repr

/-- A normalized response (one element of `formattedData`, src lines
159–165): `q1..q8` hold the numeric result of `parseScore` (which returns a
number on every non-NaN input, `parseScore_isNum` below), the other fields
pass through unchanged. -/
structure Rec where
  date : JSVal
  station : JSVal
  examiner : JSVal
  q1 : ℚ
  q2 : ℚ
  q3 : ℚ
  q4 : ℚ
  q5 : ℚ
  q6 : ℚ
  q7 : ℚ
  q8 : ℚ
  q9 : JSVal
  q10 : JSVal
deriving DecidableEq, Repr

/-- Numeric payload of a `JSVal` (used to store `parseScore`'s result, which
is `.num _` on every non-NaN input). -/
def numOf : JSVal → ℚ
  | .num q => q
  | _ => 0

/-- The Record Normalizer (src lines 159–165): spread the raw record,
canonicalize `station`, run `parseScore` over `q1..q8`. -/
def formatRec (r : RawRec) : Rec :=
  { date := r.date
    station := normStation r.station
    examiner := r.examiner
    q1 := numOf (parseScore r.q1)
    q2 := numOf (parseScore r.q2)
    q3 := numOf (parseScore r.q3)
    q4 := numOf (parseScore r.q4)
    q5 := numOf (parseScore r.q5)
    q6 := numOf (parseScore r.q6)
    q7 := numOf (parseScore r.q7)
    q8 := numOf (parseScore r.q8)
    q9 := r.q9
    q10 := r.q10 }

/-- The eight question scores of a record, in order. -/
def recQs (r : Rec) : List ℚ :=
  [r.q1, r.q2, r.q3, r.q4, r.q5, r.q6, r.q7, r.q8]

/-- Zero-based access `item[q(i+1)]` to the question scores. -/
def qScore (r : Rec) (i : Nat) : ℚ :=
  (recQs r).getD i 0

/-- `x || 0` on a JavaScript number that is not NaN: `x` itself unless it is
(the falsy) 0. -/
def qOrZero (q : ℚ) : ℚ :=
  if q = 0 then 0 else q

/-- `dateMatch` (src line 181): `filterDate === 'All' || item.date === filterDate`
(the filter values come from `<select>` controls, hence are strings). -/
def dateMatchB (fd : String) (item : Rec) : Bool :=
  decide (fd = "All") || jsEq item.date (.str fd)

/-- `stationMatch` (src line 182):
`filterStation === 'All' || item.station === (filterStation === 'All' ? item.station : parseInt(filterStation))`. -/
def stationMatchB (fs : String) (item : Rec) : Bool :=
  decide (fs = "All") ||
    jsEq item.station (if fs = "All" then item.station else jsParseInt (.str fs))

/-- The Filter Engine `filteredData` (src lines 179–185). -/
def filteredData (data : List Rec) (fd fs : String) : List Rec :=
  data.filter (fun item => dateMatchB fd item && stationMatchB fs item)

/-- `x.toFixed(d)` as an exact value: round to `d` decimal places, ties
toward positive infinity (ECMAScript `toFixed` picks the larger candidate
integer on a tie).  `radarData`'s `parseFloat(avg)` recovers exactly this
value from the decimal string, so the composition is modelled by `toFix`
directly. -/
def toFix (d : Nat) (x : ℚ) : ℚ :=
  ((⌊x * (10 : ℚ) ^ d + 1 / 2⌋ : ℤ) : ℚ) / (10 : ℚ) ^ d

/-- Output record of the Metrics Aggregator `stats` (src lines 187–208).
`avgSatisfaction` is produced by `toFixed(1)` — a decimal string in the
source — and is modelled by its exact numeric value. -/
structure Stats where
  totalCount : Nat
  avgSatisfaction : ℚ
  itemsToImprove : Nat
deriving DecidableEq, Repr

/-- One step of the `forEach`/`for i=1..8` accumulation of
`(totalScoreSum, totalItems)` in `stats` (src lines 193–198). -/
def statsRowFold (it : Rec) (p : ℚ × Nat) : ℚ × Nat :=
  (List.range 8).foldl (fun q i => (q.1 + qOrZero (qScore it i), q.2 + 1)) p

/-- The Metrics Aggregator `stats` (src lines 187–208), translated
clause by clause (including the dead `totalItems ? _ : 0` and
`totalCount ? _ : 0` guards inside the non-empty branch). -/
def stats (C : List Rec) : Stats :=
  let totalCount := C.length
  if totalCount = 0 then ⟨0, 0, 0⟩
  else
    let acc := C.foldl (fun p it => statsRowFold it p) ((0 : ℚ), (0 : Nat))
    let avgSatisfaction : ℚ :=
      if acc.2 = 0 then 0 else toFix 1 (acc.1 / (acc.2 : ℚ))
    let itemsToImprove :=
      ((List.range 8).filter (fun i =>
        let qSum := C.foldl (fun a cur => a + qOrZero (qScore cur i)) (0 : ℚ)
        decide ((if totalCount = 0 then 0 else qSum / (totalCount : ℚ)) < 7 / 2))).length
    ⟨totalCount, avgSatisfaction, itemsToImprove⟩

/-- `Math.round`: nearest integer, ties toward positive infinity. -/
def jsRound (q : ℚ) : Int :=
  ⌊q + 1 / 2⌋

/-- The five histogram buckets `{1:0, 2:0, 3:0, 4:0, 5:0}` of the
Distribution Builder. -/
structure Counts where
  c1 : Nat
  c2 : Nat
  c3 : Nat
  c4 : Nat
  c5 : Nat
deriving DecidableEq, Repr

/-- `if (counts[score] !== undefined) counts[score]++` (src line 218):
only rounded scores 1–5 are keys of `counts`; everything else is ignored. -/
def stepCount (c : Counts) (score : Int) : Counts :=
  if score = 1 then { c with c1 := c.c1 + 1 }
  else if score = 2 then { c with c2 := c.c2 + 1 }
  else if score = 3 then { c with c3 := c.c3 + 1 }
  else if score = 4 then { c with c4 := c.c4 + 1 }
  else if score = 5 then { c with c5 := c.c5 + 1 }
  else c

/-- The `QUESTION_MAPPING` table (src lines 13–22): short key and display
label of each question. -/
def questionLabels : List (String × String) :=
  [("Q1", "1. 測驗內容及其難度合宜"),
   ("Q2", "2. 評核表評分項目合宜"),
   ("Q3", "3. 評分說明內容清楚、合宜"),
   ("Q4", "4. 試題指引內容足夠"),
   ("Q5", "5. 測驗時間(8 mins)長短合宜"),
   ("Q6", "6. 試場各項標示、移動路線規劃清楚、合宜"),
   ("Q7", "7. 試場各項鈴聲、廣播清楚、合宜"),
   ("Q8", "8. 試務運作流程順暢、試務人員紀律良好")]

/-- One row of the Distribution Builder's output. -/
structure DistRow where
  name : String
  shortName : String
  c1 : Nat
  c2 : Nat
  c3 : Nat
  c4 : Nat
  c5 : Nat
  total : Nat
deriving DecidableEq, Repr

/-- The Distribution Builder `distributionData` (src lines 210–227): one row
per question, bucket counts accumulated by `Math.round` + `counts[score]++`,
`total` = size of the filtered collection. -/
def distributionData (C : List Rec) : List DistRow :=
  if C.length = 0 then []
  else
    (List.range 8).map (fun i =>
      let counts := C.foldl (fun c it => stepCount c (jsRound (qScore it i))) ⟨0, 0, 0, 0, 0⟩
      { name := ((questionLabels.getD i ("", "")).2)
        shortName := ((questionLabels.getD i ("", "")).1)
        c1 := counts.c1
        c2 := counts.c2
        c3 := counts.c3
        c4 := counts.c4
        c5 := counts.c5
        total := C.length })

/-- One axis of the Profile Builder's output
(`{subject, A, fullMark: 5}`, src line 236). -/
structure RadarEntry where
  subject : String
  A : ℚ
  fullMark : ℚ
deriving DecidableEq, Repr

/-- The Profile Builder `radarData` (src lines 229–239): per question the
mean of `(curr[key] || 0)` over the filtered collection, put through
`toFixed(2)` and `parseFloat` (modelled by `toFix 2`); empty collection ↦
empty list. -/
def radarData (C : List Rec) : List RadarEntry :=
  if C.length = 0 then []
  else
    (List.range 8).map (fun i =>
      let sum := C.foldl (fun acc curr => acc + qOrZero (qScore curr i)) (0 : ℚ)
      let avg : ℚ := if C.length = 0 then 0 else toFix 2 (sum / (C.length : ℚ))
      { subject := "Q" ++ toString (i + 1), A := avg, fullMark := 5 })

/-- One entry of a feedback channel: `{...d, text: d.q9}` — the whole record
plus a `text` field (src lines 241–242). -/
structure FbEntry where
  base : Rec
  text : JSVal
deriving DecidableEq, Repr

/-- The q9 channel of the Feedback Extractor (src line 241). -/
def feedbackQ9 (C : List Rec) : List FbEntry :=
  (C.filter (fun d => truthy d.q9)).map (fun d => ⟨d, d.q9⟩)

/-- The q10 channel of the Feedback Extractor (src line 242). -/
def feedbackQ10 (C : List Rec) : List FbEntry :=
  (C.filter (fun d => truthy d.q10)).map (fun d => ⟨d, d.q10⟩)

/-- A parsed JSON document (what `response.json()` can resolve to), for the
response-shape dispatch on src line 158. -/
inductive JVal where
  | jnull
  | jbool (b : Bool)
  | jnum (q : ℚ)
  | jstr (s : String)
  | jarr (xs : List JVal)
  | jobj (fs : List (String × JVal))

/-- Truthiness of a parsed JSON value (objects and arrays are always
truthy). -/
def truthyJ : JVal → Bool
  | .jnull => false
  | .jbool b => b
  | .jnum q => decide (q ≠ 0)
  | .jstr s => decide (s ≠ "")
  | .jarr _ => true
  | .jobj _ => true

/-- Property lookup on an object's field list (`none` = the property is
absent, i.e. `undefined`). -/
def getField (fs : List (String × JVal)) (k : String) : Option JVal :=
  (fs.find? (fun p => p.1 == k)).map (fun p => p.2)

/-- `jsonData.examiner`: a `TypeError` (modelled as `Except.error`) when the
receiver is `null`; `undefined` (`Option.none`) on primitives and arrays,
which have no `examiner` own-property when coming from JSON. -/
def jsGetExaminer : JVal → Except Unit (Option JVal)
  | .jnull => .error ()
  | .jobj fs => .ok (getField fs "examiner")
  | _ => .ok none

/-- `Array.isArray(jsonData)`. -/
def isArrayJ : JVal → Bool
  | .jarr _ => true
  | _ => false

/-- The response-shape dispatch (src line 158):
`jsonData.examiner ? jsonData.examiner : (Array.isArray(jsonData) ? jsonData : [])`.
`Except.error` models the `TypeError` thrown on a `null` body (caught by the
surrounding `.catch`, which switches the UI into the terminal error state). -/
def rawList (j : JVal) : Except Unit JVal :=
  match jsGetExaminer j with
  | .error e => .error e
  | .ok (some ex) =>
      if truthyJ ex then .ok ex
      else .ok (if isArrayJ j then j else .jarr [])
  | .ok none => .ok (if isArrayJ j then j else .jarr [])

/-- Spec-side quantity: the sum of the eight question scores of one
record. -/
def rowSum (r : Rec) : ℚ :=
  ((List.range 8).map (fun i => qScore r i)).sum

/-- Spec-side quantity: the sum of every score value in every record of a
collection. -/
def specTotalSum (C : List Rec) : ℚ :=
  (C.map rowSum).sum

/-- Spec-side quantity: the sum of question `i`'s score across a
collection. -/
def specQSum (C : List Rec) (i : Nat) : ℚ :=
  (C.map (fun r => qScore r i)).sum

/-- Spec-side quantity: the per-question mean score across a collection. -/
def qMean (C : List Rec) (i : Nat) : ℚ :=
  specQSum C i / (C.length : ℚ)

/-- Spec-side quantity: how many records of `C` have question `i`'s score
rounding (JavaScript `Math.round`) to exactly `k`. -/
def cntK (C : List Rec) (i : Nat) (k : Int) : Nat :=
  C.countP (fun it => decide (jsRound (qScore it i) = k))

/-- A sample normalized record (station 3, all scores 4, q9 present,
q10 absent). -/
def sampleRec : Rec :=
  { date := .str "D1"
    station := .num 3
    examiner := .str "E1"
    q1 := 4, q2 := 4, q3 := 4, q4 := 4, q5 := 4, q6 := 4, q7 := 4, q8 := 4
    q9 := .str "clear process"
    q10 := .undefV }

/-- A record whose normalized station is the non-numeric label `"A"`
(as produced by `normStation (.str "A")`). -/
def labelRec : Rec :=
  { date := .str "D1"
    station := .str "A"
    examiner := .str "E2"
    q1 := 5, q2 := 5, q3 := 5, q4 := 5, q5 := 5, q6 := 5, q7 := 5, q8 := 5
    q9 := .undefV
    q10 := .undefV }

/-- A record carrying an out-of-range score (7): normalization performs no
upper clamp, so such records exist in normalized snapshots. -/
def outlierRec : Rec :=
  { date := .str "D1"
    station := .num 1
    examiner := .str "E3"
    q1 := 7, q2 := 0, q3 := 0, q4 := 0, q5 := 0, q6 := 0, q7 := 0, q8 := 0
    q9 := .undefV
    q10 := .undefV }

/-! ## Helper lemmas -/

lemma qOrZero_eq (q : ℚ) : qOrZero q = q := by
  unfold qOrZero
  split
  · simp_all
  · rfl

lemma jsEq_nan (v : JSVal) : jsEq v .nan = false := by
  cases v <;> rfl

lemma jsEq_num_iff (v : JSVal) (q : ℚ) : jsEq v (.num q) = true ↔ v = .num q := by
  cases v <;> simp [jsEq]

lemma parseScore_isNum (v : JSVal) (h : v ≠ .nan) : ∃ q, parseScore v = .num q := by
  cases v with
  | num q => exact ⟨q, rfl⟩
  | nan => exact absurd rfl h
  | str s =>
      by_cases hs : s = ""
      · exact ⟨0, by simp [parseScore, hs]⟩
      · exact ⟨parseTail s, by simp [parseScore, hs]⟩
  | boolV b => cases b <;> exact ⟨_, rfl⟩
  | nullV => exact ⟨0, rfl⟩
  | undefV => exact ⟨0, rfl⟩

lemma parseFloatDD_nonneg (s : String) (q : ℚ) (h : parseFloatDD s = some q) :
    0 ≤ q := by
  simp only [parseFloatDD] at h
  split at h
  · split at h
    · exact absurd h (by simp)
    · rw [Option.some_inj] at h
      subst h
      positivity
  · split at h
    · exact absurd h (by simp)
    · rw [Option.some_inj] at h
      subst h
      positivity

lemma parseTail_nonneg (s : String) : 0 ≤ parseTail s := by
  unfold parseTail
  cases h : parseFloatDD (stripScore s) with
  | none => simp
  | some q => simpa using parseFloatDD_nonneg _ _ h

lemma foldl_add {α : Type} (f : α → ℚ) (l : List α) (a : ℚ) :
    l.foldl (fun acc x => acc + f x) a = a + (l.map f).sum := by
  induction l generalizing a with
  | nil => simp
  | cons x tl ih => simp [List.foldl_cons, ih]; ring

lemma statsRowFold_eq (it : Rec) (p : ℚ × Nat) :
    statsRowFold it p = (p.1 + rowSum it, p.2 + 8) := by
  have h8 : List.range 8 = [0, 1, 2, 3, 4, 5, 6, 7] := rfl
  simp only [statsRowFold, rowSum, h8, List.foldl_cons, List.foldl_nil,
    List.map_cons, List.map_nil, List.sum_cons, List.sum_nil, qOrZero_eq]
  refine Prod.ext ?_ ?_
  · simp
    ring
  · simp

lemma foldl_statsRowFold (C : List Rec) (a : ℚ) (b : Nat) :
    C.foldl (fun p it => statsRowFold it p) (a, b) =
      (a + specTotalSum C, b + 8 * C.length) := by
  induction C generalizing a b with
  | nil => simp [specTotalSum]
  | cons r tl ih =>
      rw [List.foldl_cons, statsRowFold_eq, ih]
      refine Prod.ext ?_ ?_
      · simp [specTotalSum]
        ring
      · simp [List.length_cons]
        ring

lemma stepCount_eq (c : Counts) (v : Int) :
    stepCount c v =
      ⟨c.c1 + (if v = 1 then 1 else 0), c.c2 + (if v = 2 then 1 else 0),
       c.c3 + (if v = 3 then 1 else 0), c.c4 + (if v = 4 then 1 else 0),
       c.c5 + (if v = 5 then 1 else 0)⟩ := by
  unfold stepCount
  split_ifs <;> simp_all

lemma foldl_stepCount (C : List Rec) (i : Nat) (c : Counts) :
    C.foldl (fun c it => stepCount c (jsRound (qScore it i))) c =
      ⟨c.c1 + cntK C i 1, c.c2 + cntK C i 2, c.c3 + cntK C i 3,
       c.c4 + cntK C i 4, c.c5 + cntK C i 5⟩ := by
  induction C generalizing c with
  | nil => simp [cntK]
  | cons r tl ih =>
      rw [List.foldl_cons, ih, stepCount_eq]
      simp only [cntK, List.countP_cons, decide_eq_true_eq, Counts.mk.injEq]
      refine ⟨?_, ?_, ?_, ?_, ?_⟩ <;> split_ifs <;> omega

lemma cntK_sum_le (C : List Rec) (i : Nat) :
    cntK C i 1 + cntK C i 2 + cntK C i 3 + cntK C i 4 + cntK C i 5 ≤
      C.length := by
  induction C with
  | nil => simp [cntK]
  | cons r tl ih =>
      simp only [cntK, List.countP_cons, decide_eq_true_eq, List.length_cons] at *
      split_ifs <;> omega

lemma jsRound_eq_iff (q : ℚ) (k : Int) :
    jsRound q = k ↔ ((k : ℚ) - 1 / 2 ≤ q ∧ q < (k : ℚ) + 1 / 2) := by
  unfold jsRound
  rw [Int.floor_eq_iff]
  constructor <;> rintro ⟨h1, h2⟩ <;> constructor <;> linarith

lemma toFix_nonneg (d : Nat) (x : ℚ) (h : 0 ≤ x) : 0 ≤ toFix d x := by
  unfold toFix
  apply div_nonneg
  · have : (0 : ℤ) ≤ ⌊x * (10 : ℚ) ^ d + 1 / 2⌋ := Int.floor_nonneg.mpr (by positivity)
    exact_mod_cast this
  · positivity

lemma toFix_le_five (d : Nat) (x : ℚ) (h : x ≤ 5) : toFix d x ≤ 5 := by
  unfold toFix
  rw [div_le_iff₀ (by positivity)]
  have hp : (0 : ℚ) < (10 : ℚ) ^ d := by positivity
  have h2 : (⌊x * (10 : ℚ) ^ d + 1 / 2⌋ : ℚ) ≤ x * (10 : ℚ) ^ d + 1 / 2 :=
    Int.floor_le _
  have h3 : x * (10 : ℚ) ^ d + 1 / 2 < 5 * (10 : ℚ) ^ d + 1 := by nlinarith
  have h4 : (⌊x * (10 : ℚ) ^ d + 1 / 2⌋ : ℚ) < ((5 * 10 ^ d + 1 : ℤ) : ℚ) := by
    push_cast
    linarith
  have h5 : ⌊x * (10 : ℚ) ^ d + 1 / 2⌋ < 5 * 10 ^ d + 1 := by exact_mod_cast h4
  have h6 : ⌊x * (10 : ℚ) ^ d + 1 / 2⌋ ≤ 5 * 10 ^ d := by omega
  calc (⌊x * (10 : ℚ) ^ d + 1 / 2⌋ : ℚ) ≤ ((5 * 10 ^ d : ℤ) : ℚ) := by exact_mod_cast h6
    _ = 5 * (10 : ℚ) ^ d := by push_cast; ring

lemma radarData_getElem (C : List Rec) (h : C ≠ []) (i : Nat) (hi : i < 8) :
    (radarData C)[i]? = some ⟨"Q" ++ toString (i + 1), toFix 2 (qMean C i), 5⟩ := by
  simp [radarData, h, List.getElem?_map, List.getElem?_range hi, foldl_add,
    qOrZero_eq, qMean, specQSum]

/-! ## Claim theorems -/

/-- C2: the Score Normalizer `parseScore` is a total function (it yields a
number on every value a JSON field can produce): a number input is returned
unchanged; `null`, `undefined` and the empty string yield 0; every other
value is converted to text, stripped of every character that is not a
decimal digit or a dot, and parsed as a float, with 0 when parsing fails
(`Option.getD 0`). -/
theorem parseScore_spec :
    (∀ q : ℚ, parseScore (.num q) = .num q) ∧
    parseScore .nullV = .num 0 ∧
    parseScore .undefV = .num 0 ∧
    parseScore (.str "") = .num 0 ∧
    (∀ s : String, s ≠ "" →
      parseScore (.str s) = .num ((parseFloatDD (stripScore s)).getD 0)) ∧
    (∀ v : JSVal, v ≠ .nan → ∃ q : ℚ, parseScore v = .num q) := by
  refine ⟨fun q => rfl, rfl, rfl, rfl, fun s hs => ?_, parseScore_isNum⟩
  simp [parseScore, hs, parseTail]

/-- Witness for C2 at the concrete string "4分". -/
theorem parseScore_spec_witness :
    ("4分" : String) ≠ "" ∧
    parseScore (.str "4分") = .num ((parseFloatDD (stripScore "4分")).getD 0) :=
  ⟨by decide, parseScore_spec.2.2.2.2.1 "4分" (by decide)⟩

/-- C9 counterexample: the numeric input `-1` is returned unchanged, so
`parseScore` does not return a non-negative number on every numeric-like
input. -/
theorem parseScore_negative_cex :
    parseScore (.num (-1)) = .num (-1) ∧ ¬ (0 ≤ (-1 : ℚ)) :=
  ⟨rfl, by norm_num⟩

/-- C9 amended: on every non-number input `parseScore` returns a
non-negative number (number inputs are returned unchanged, so a negative
number passes through); and `parseScore null = 0`, `parseScore "4分" = 4`,
`parseScore 3.7 = 3.7`, `parseScore "abc" = 0`. -/
theorem normalizeScore_amended :
    (∀ v : JSVal, (∀ q : ℚ, v ≠ .num q) → v ≠ .nan →
        ∃ q : ℚ, parseScore v = .num q ∧ 0 ≤ q) ∧
    parseScore .nullV = .num 0 ∧
    parseScore (.str "4分") = .num 4 ∧
    parseScore (.num (37 / 10)) = .num (37 / 10) ∧
    parseScore (.str "abc") = .num 0 := by
  refine ⟨?_, rfl, by decide, rfl, by decide⟩
  intro v hnum hnan
  cases v with
  | num q => exact absurd rfl (hnum q)
  | nan => exact absurd rfl hnan
  | str s =>
      by_cases hs : s = ""
      · exact ⟨0, by simp [parseScore, hs], le_refl 0⟩
      · exact ⟨parseTail s, by simp [parseScore, hs], parseTail_nonneg s⟩
  | boolV b =>
      cases b with
      | false => exact ⟨0, rfl, le_refl 0⟩
      | true => exact ⟨parseTail "true", rfl, parseTail_nonneg _⟩
  | nullV => exact ⟨0, rfl, le_refl 0⟩
  | undefV => exact ⟨0, rfl, le_refl 0⟩

/-- Witness for the amended C9 at the non-number input `"x"`. -/
theorem normalizeScore_amended_witness :
    ∃ q : ℚ, parseScore (.str "x") = .num q ∧ 0 ≤ q :=
  normalizeScore_amended.1 (.str "x") (fun _ h => JSVal.noConfusion h)
    (fun h => JSVal.noConfusion h)

/-- C10: normalization keeps the raw station whenever `parseInt` yields a
falsy value (NaN or 0), not only on outright parse failure: the string "0"
stays the string "0", while "3A" becomes the number 3; and `formattedData`
applies exactly this rule to the `station` field. -/
theorem station_keep_falsy :
    (∀ v : JSVal, truthy (jsParseInt v) = false → normStation v = v) ∧
    normStation (.str "0") = .str "0" ∧
    normStation (.str "3A") = .num 3 ∧
    (∀ r : RawRec, (formatRec r).station = normStation r.station) := by
  refine ⟨?_, by decide, by decide, fun r => rfl⟩
  intro v h
  simp [normStation, h]

/-- Witness for C10 at the numeric input 0 (parses to the falsy 0, hence is
kept). -/
theorem station_keep_falsy_witness :
    truthy (jsParseInt (.num 0)) = false ∧ normStation (.num 0) = .num 0 :=
  ⟨by decide, station_keep_falsy.1 (.num 0) (by decide)⟩

/-- C3: for every snapshot and every filter pair, the Filter Engine's output
is an order-preserving subsequence of the snapshot whose records are records
of the snapshot (none is mutated), and filtering with both match-all
sentinels returns the snapshot itself. -/
theorem filter_subsequence_spec (S : List Rec) (fd fs : String) :
    List.Sublist (filteredData S fd fs) S ∧
    (∀ r, r ∈ filteredData S fd fs → r ∈ S) ∧
    filteredData S "All" "All" = S := by
  refine ⟨List.filter_sublist S, fun r hr => (List.filter_sublist S).subset hr, ?_⟩
  apply List.filter_eq_self.mpr
  intro a _
  simp [dateMatchB, stationMatchB]

/-- Witness for C3 on a concrete two-record snapshot. -/
theorem filter_subsequence_spec_witness :
    filteredData [sampleRec, labelRec] "All" "All" = [sampleRec, labelRec] :=
  (filter_subsequence_spec [sampleRec, labelRec] "All" "All").2.2

/-- C4 counterexample: a record whose canonical normalized station is the
non-numeric label "A" (indeed `normStation "A" = "A"`) is NOT matched by the
station filter holding that same label: `parseInt("A")` is NaN and NaN is
strictly equal to nothing, so the filtered result is empty. -/
theorem stationFilter_label_cex :
    jsEq labelRec.station (.str "A") = true ∧
    normStation (.str "A") = .str "A" ∧
    filteredData [labelRec] "All" "A" = [] := by
  refine ⟨by decide, by decide, by decide⟩

/-- C4 amended: a specific station filter is compared after plain
`parseInt`, WITHOUT the `|| original` fallback used during record
normalization: a record matches iff the filter string parses to an integer
`n` and the record's station is exactly the number `n`.  Hence "3" matches
integer station 3, but a non-numeric filter label matches no record, and a
record whose canonical station is a string (such as "0" or a label) is
matched by no specific filter. -/
theorem stationFilter_amended (item : Rec) (fs : String) (h : fs ≠ "All") :
    stationMatchB fs item = true ↔
      ∃ n : Int, jsParseIntStr fs = some n ∧ item.station = .num (n : ℚ) := by
  have h1 : decide (fs = "All") = false := decide_eq_false h
  simp only [stationMatchB, h1, Bool.false_or, if_neg h]
  cases hp : jsParseIntStr fs with
  | none => simp [jsParseInt, hp, jsEq_nan]
  | some n => simp [jsParseInt, hp, jsEq_num_iff]

/-- Witness for the amended C4: the filter "3" matches the record with
numeric station 3. -/
theorem stationFilter_amended_witness :
    ("3" : String) ≠ "All" ∧ stationMatchB "3" sampleRec = true :=
  ⟨by decide,
   (stationFilter_amended sampleRec "3" (by decide)).mpr ⟨3, by decide, by decide⟩⟩

/-- C1: on a non-empty filtered collection the Metrics Aggregator returns
`avgSatisfaction` = (sum of all eight scores over all records) / (count × 8)
rounded to one decimal place, and `itemsToImprove` = the number of questions
whose per-question mean is strictly below 3.5; on the empty collection both
are 0 (the guard returns the zero record before any division). -/
theorem stats_spec (C : List Rec) (h : C ≠ []) :
    (stats C).totalCount = C.length ∧
    (stats C).avgSatisfaction = toFix 1 (specTotalSum C / ((C.length : ℚ) * 8)) ∧
    (stats C).itemsToImprove =
      ((List.range 8).filter (fun i => decide (qMean C i < 7 / 2))).length ∧
    stats [] = ⟨0, 0, 0⟩ := by
  have hlen : C.length ≠ 0 := fun hl => h (List.length_eq_zero.mp hl)
  have h8 : 8 * C.length ≠ 0 := Nat.mul_ne_zero (by norm_num) hlen
  refine ⟨?_, ?_, ?_, rfl⟩
  · simp only [stats, if_neg hlen]
  · simp only [stats, if_neg hlen, foldl_statsRowFold]
    rw [if_neg (by simpa using h8)]
    congr 1
    push_cast
    rw [zero_add]
    ring_nf
  · simp only [stats, if_neg hlen]
    congr 1
    apply List.filter_congr
    intro i _
    rw [foldl_add]
    simp [qOrZero_eq, qMean, specQSum]

/-- Witness for C1 on a concrete one-record collection. -/
theorem stats_spec_witness :
    ([sampleRec] ≠ ([] : List Rec)) ∧
    (stats [sampleRec]).avgSatisfaction =
      toFix 1 (specTotalSum [sampleRec] / (((List.length [sampleRec] : Nat) : ℚ) * 8)) :=
  ⟨by decide, (stats_spec [sampleRec] (by decide)).2.1⟩

/-- C5: on a non-empty filtered collection, the `i`-th row of the
Distribution Builder counts, per bucket `k ∈ 1..5`, exactly the records
whose score rounds to `k` under `Math.round` (nearest integer, ties toward
positive infinity — characterized by the final clause); out-of-range rounded
values (0 included) enter no bucket yet still count in `total` = the
collection's size, so the five buckets sum to at most `total`. -/
theorem distribution_spec (C : List Rec) (i : Nat) (h : C ≠ []) (hi : i < 8) :
    ∃ row : DistRow,
      (distributionData C)[i]? = some row ∧
      row.total = C.length ∧
      row.c1 = cntK C i 1 ∧ row.c2 = cntK C i 2 ∧ row.c3 = cntK C i 3 ∧
      row.c4 = cntK C i 4 ∧ row.c5 = cntK C i 5 ∧
      row.c1 + row.c2 + row.c3 + row.c4 + row.c5 ≤ C.length ∧
      (∀ (q : ℚ) (k : Int),
        jsRound q = k ↔ ((k : ℚ) - 1 / 2 ≤ q ∧ q < (k : ℚ) + 1 / 2)) := by
  have hlen : C.length ≠ 0 := fun hl => h (List.length_eq_zero.mp hl)
  refine ⟨{ name := (questionLabels.getD i ("", "")).2
            shortName := (questionLabels.getD i ("", "")).1
            c1 := cntK C i 1, c2 := cntK C i 2, c3 := cntK C i 3
            c4 := cntK C i 4, c5 := cntK C i 5, total := C.length },
          ?_, rfl, rfl, rfl, rfl, rfl, rfl, cntK_sum_le C i, jsRound_eq_iff⟩
  simp [distributionData, h, List.getElem?_map, List.getElem?_range hi,
    foldl_stepCount]

/-- Witness for C5 at a concrete collection and the first question. -/
theorem distribution_spec_witness :
    ([sampleRec] ≠ ([] : List Rec)) ∧ 0 < 8 ∧
    ∃ row : DistRow, (distributionData [sampleRec])[(0 : Nat)]? = some row ∧
      row.total = List.length [sampleRec] := by
  refine ⟨by decide, by decide, ?_⟩
  obtain ⟨row, h1, h2, _⟩ := distribution_spec [sampleRec] 0 (by decide) (by decide)
  exact ⟨row, h1, h2⟩

/-- C6 counterexample: normalization applies no upper clamp, so a record
with score 7 on q1 yields the profile entry `{subject := "Q1", A := 7,
fullMark := 5}` on the singleton collection — its value lies outside
`[0, 5]`, refuting the claimed range invariant. -/
theorem radar_range_cex :
    (radarData [outlierRec])[(0 : Nat)]? = some ⟨"Q1", 7, 5⟩ ∧ ¬ ((7 : ℚ) ≤ 5) := by
  constructor
  · have h1 : qMean [outlierRec] 0 = 7 := by
      norm_num [qMean, specQSum, qScore, recQs, outlierRec]
    have h2 : toFix 2 7 = 7 := by
      norm_num [toFix, Int.floor_eq_iff]
    rw [radarData_getElem [outlierRec] (by decide) 0 (by decide), h1, h2]
    rfl
  · norm_num

/-- C6 amended: on every non-empty collection the Profile Builder outputs
exactly one entry per question q1..q8, whose value is the mean score rounded
to two decimal places and whose domain bound `fullMark` is the fixed 5, and
the empty collection yields the empty sequence (all unconditionally); the
value lies in `[0, 5]` PROVIDED every score of every record in the
collection lies in `[0, 5]` (normalization does not clamp, so only the range
invariant needs that hypothesis). -/
theorem radar_amended (C : List Rec) (h : C ≠ []) :
    (radarData C).length = 8 ∧
    (∀ i, i < 8 →
      (radarData C)[i]? = some ⟨"Q" ++ toString (i + 1), toFix 2 (qMean C i), 5⟩) ∧
    radarData ([] : List Rec) = [] ∧
    ((∀ r ∈ C, ∀ i, i < 8 → 0 ≤ qScore r i ∧ qScore r i ≤ 5) →
      ∀ i, i < 8 → 0 ≤ toFix 2 (qMean C i) ∧ toFix 2 (qMean C i) ≤ 5) := by
  have hlen : C.length ≠ 0 := fun hl => h (List.length_eq_zero.mp hl)
  have hpos : (0 : ℚ) < (C.length : ℚ) := by
    have := Nat.pos_of_ne_zero hlen
    exact_mod_cast this
  refine ⟨by simp [radarData, h], fun i hi => radarData_getElem C h i hi, rfl, ?_⟩
  intro hb i hi
  constructor
  · apply toFix_nonneg
    apply div_nonneg _ (le_of_lt hpos)
    apply List.sum_nonneg
    intro x hx
    rw [List.mem_map] at hx
    obtain ⟨r, hr, rfl⟩ := hx
    exact (hb r hr i hi).1
  · apply toFix_le_five
    rw [qMean, div_le_iff₀ hpos]
    have hs : (C.map (fun r => qScore r i)).sum ≤ (C.map (fun r => qScore r i)).length • (5 : ℚ) := by
      apply List.sum_le_card_nsmul
      intro x hx
      rw [List.mem_map] at hx
      obtain ⟨r, hr, rfl⟩ := hx
      exact (hb r hr i hi).2
    rw [List.length_map, nsmul_eq_mul] at hs
    rw [specQSum]
    linarith

/-- Witness for the amended C6: on the concrete in-range collection
`[sampleRec]` the profile has eight entries and the first value lies in
`[0, 5]`. -/
theorem radar_amended_witness :
    (radarData [sampleRec]).length = 8 ∧
    (0 ≤ toFix 2 (qMean [sampleRec] 0) ∧ toFix 2 (qMean [sampleRec] 0) ≤ 5) := by
  have hthm := radar_amended [sampleRec] (by decide)
  exact ⟨hthm.1, hthm.2.2.2 (by decide) 0 (by decide)⟩

/-- C7: each feedback channel keeps, in the original filtered order, exactly
the records whose corresponding text field is truthy (an entry is omitted
iff the field is falsy — missing fields are simply falsy `undefined`, no
error), and every entry carries the text together with the whole record
(hence its examiner, station and date). -/
theorem feedback_spec (C : List Rec) :
    (feedbackQ9 C).map (fun e => e.base) = C.filter (fun d => truthy d.q9) ∧
    (∀ e ∈ feedbackQ9 C, e.text = e.base.q9 ∧ truthy e.base.q9 = true) ∧
    (feedbackQ10 C).map (fun e => e.base) = C.filter (fun d => truthy d.q10) ∧
    (∀ e ∈ feedbackQ10 C, e.text = e.base.q10 ∧ truthy e.base.q10 = true) := by
  refine ⟨?_, ?_, ?_, ?_⟩
  · simp [feedbackQ9, List.map_map, Function.comp_def]
  · intro e he
    simp only [feedbackQ9, List.mem_map, List.mem_filter] at he
    obtain ⟨d, ⟨_, htr⟩, rfl⟩ := he
    exact ⟨rfl, htr⟩
  · simp [feedbackQ10, List.map_map, Function.comp_def]
  · intro e he
    simp only [feedbackQ10, List.mem_map, List.mem_filter] at he
    obtain ⟨d, ⟨_, htr⟩, rfl⟩ := he
    exact ⟨rfl, htr⟩

/-- Witness for C7: the q9 channel entry of the sample record carries its
text and a truthy source field. -/
theorem feedback_spec_witness :
    (⟨sampleRec, sampleRec.q9⟩ : FbEntry).text = sampleRec.q9 ∧
    truthy sampleRec.q9 = true :=
  (feedback_spec [sampleRec, labelRec]).2.1 ⟨sampleRec, sampleRec.q9⟩ (by decide)

/-- C8 counterexample: a `null` JSON body is NOT treated as an empty
dataset: evaluating `jsonData.examiner` throws a `TypeError` (the `.catch`
then reports the terminal error state). -/
theorem rawList_null_cex :
    rawList JVal.jnull = Except.error () ∧
    rawList JVal.jnull ≠ Except.ok (JVal.jarr []) := by
  refine ⟨rfl, ?_⟩
  intro hc
  rw [show rawList JVal.jnull = Except.error () from rfl] at hc
  exact Except.noConfusion hc

/-- C8 amended: a bare array is returned as-is; an object whose `examiner`
field is truthy yields that field's value (the accepted shape stores the
record array there; a truthy non-array would propagate as-is); an object
with an absent or falsy `examiner`, and any non-null primitive, yield the
empty dataset; a `null` body throws (surfacing the fetch error state)
instead of yielding an empty dataset. -/
theorem rawList_amended :
    rawList JVal.jnull = Except.error () ∧
    (∀ xs : List JVal, rawList (.jarr xs) = .ok (.jarr xs)) ∧
    (∀ fs ex, getField fs "examiner" = some ex → truthyJ ex = true →
        rawList (.jobj fs) = .ok ex) ∧
    (∀ fs ex, getField fs "examiner" = some ex → truthyJ ex = false →
        rawList (.jobj fs) = .ok (.jarr [])) ∧
    (∀ fs, getField fs "examiner" = none → rawList (.jobj fs) = .ok (.jarr [])) ∧
    (∀ b, rawList (.jbool b) = .ok (.jarr [])) ∧
    (∀ q, rawList (.jnum q) = .ok (.jarr [])) ∧
    (∀ s, rawList (.jstr s) = .ok (.jarr [])) := by
  refine ⟨rfl, fun xs => rfl, ?_, ?_, ?_, fun b => rfl, fun q => rfl, fun s => rfl⟩
  · intro fs ex hf ht
    simp [rawList, jsGetExaminer, hf, ht]
  · intro fs ex hf ht
    simp [rawList, jsGetExaminer, hf, ht, isArrayJ]
  · intro fs hf
    simp [rawList, jsGetExaminer, hf, isArrayJ]

/-- Witness for the amended C8: the accepted object shape
`{examiner: [...]}` yields the stored array. -/
theorem rawList_amended_witness :
    rawList (.jobj [("examiner", .jarr [.jnum 1])]) = .ok (.jarr [.jnum 1]) :=
  rawList_amended.2.2.1 [("examiner", .jarr [.jnum 1])] (.jarr [.jnum 1]) rfl rfl

end OSCE
